import Mathlib

/-!
Verification of the `openclaw` antigravity multi-account rotation engine.

Shallow embedding of:
* `src/providers/antigravity-multi/types.ts`        — the `AntigravityAccount` record,
* `src/providers/antigravity-multi/account-manager.ts` — the keyed account store
  (a JS `Map` keyed by email; modelled as a `List` of accounts in insertion order,
  with `updateAccount` performing the object-spread merge on the matching entry),
* `rotator.ts` (`AccountRotator`)                   — selection strategies, circuit
  breaker, rate-limit cooldowns and HTTP status handlers,
* the `createResponseInterceptor` / `refreshAllTokens` code of the plugin.

Conventions of the embedding:
* `Date.now()` is passed explicitly as `now : Nat`; all reads of the clock inside
  one synchronous operation see the same value.
* TS optional number / boolean fields become `Option Nat` / `Option Bool`;
  JS truthiness of numbers is modelled exactly (`0` and `undefined` are falsy),
  so `x || 0` is `Option.getD x 0` and `p || 1` maps both `none` and `some 0` to `1`.
* A `Partial<AntigravityAccount>` update object is an `AccountPatch`: an outer
  `Option` records whether the key is present in the updates object, the inner
  type mirrors the field (`rateLimitedUntil: undefined` is `some none`).
* JS `Array.prototype.sort` is stable (ECMA-262); a stable sort with respect to a
  total preorder is unique, so it is modelled by a stable insertion sort.
-/

set_option autoImplicit false

namespace OpenClaw

/-- types.ts: the four rotation strategies. -/
inductive RotationStrategy where
  | roundRobin
  | priority
  | leastUsed
  | failover
deriving Repr, DecidableEq

/-- types.ts: the `AntigravityAccount` record. -/
structure AntigravityAccount where
  email : String
  accessToken : String
  refreshToken : String
  expiresAt : Nat
  priority : Option Int := none
  lastUsed : Option Nat := none
  requestCount : Option Nat := none
  failureCount : Option Nat := none
  isRateLimited : Option Bool := none
  rateLimitedUntil : Option Nat := none
  lastRefreshed : Option Nat := none
deriving Repr, DecidableEq

/-- A `Partial<AntigravityAccount>` updates object, restricted to the fields the
rotator actually patches.  The outer `Option` is "key present in the object". -/
structure AccountPatch where
  accessToken : Option String := none
  expiresAt : Option Nat := none
  lastUsed : Option (Option Nat) := none
  requestCount : Option (Option Nat) := none
  failureCount : Option (Option Nat) := none
  isRateLimited : Option (Option Bool) := none
  rateLimitedUntil : Option (Option Nat) := none
  lastRefreshed : Option (Option Nat) := none
deriving Repr

/-- The object-spread merge `{ ...account, ...updates }`. -/
def applyPatch (a : AntigravityAccount) (p : AccountPatch) : AntigravityAccount :=
  { a with
    accessToken := p.accessToken.getD a.accessToken
    expiresAt := p.expiresAt.getD a.expiresAt
    lastUsed := p.lastUsed.getD a.lastUsed
    requestCount := p.requestCount.getD a.requestCount
    failureCount := p.failureCount.getD a.failureCount
    isRateLimited := p.isRateLimited.getD a.isRateLimited
    rateLimitedUntil := p.rateLimitedUntil.getD a.rateLimitedUntil
    lastRefreshed := p.lastRefreshed.getD a.lastRefreshed }

/-- account-manager.ts: the `Map<string, AntigravityAccount>` keyed by email,
as a list of accounts in insertion order (`getAll` returns exactly this order). -/
abbrev Store := List AntigravityAccount

/-- account-manager.ts `getAccount`: `this.accounts.get(email)`. -/
def getAccount (s : Store) (email : String) : Option AntigravityAccount :=
  s.find? (fun a => a.email == email)

/-- account-manager.ts `updateAccount`: merge the updates object into the entry
with the given key, if present (a JS `Map` holds at most one entry per key). -/
def updateAccount (s : Store) (email : String) (p : AccountPatch) : Store :=
  s.map (fun a => if a.email == email then applyPatch a p else a)

/-- rotator.ts: `CIRCUIT_BREAKER_THRESHOLD = 3`. -/
def CIRCUIT_BREAKER_THRESHOLD : Nat := 3

/-- rotator.ts: `RATE_LIMIT_COOLDOWN_MS = 60 * 1000`. -/
def RATE_LIMIT_COOLDOWN_MS : Nat := 60 * 1000

/-- rotator.ts: `MAX_401_RETRIES = 3`. -/
def MAX_401_RETRIES : Nat := 3

/-- JS `x || 0` on an optional number (`0` and `undefined` both give `0`). -/
def orZero (x : Option Nat) : Nat := x.getD 0

/-- JS `priority || 1`: both `undefined` and `0` are falsy and give `1`. -/
def priorityOr1 (x : Option Int) : Int :=
  match x with
  | some n => if n = 0 then 1 else n
  | none => 1

/-- The truthiness test `account.isRateLimited` (`undefined` is falsy). -/
def rlFlag (a : AntigravityAccount) : Bool := a.isRateLimited.getD false

/-- rotator.ts `clearExpiredRateLimits` loop guard:
`account.isRateLimited && account.rateLimitedUntil && account.rateLimitedUntil <= now`
(`rateLimitedUntil === 0` is falsy, hence never treated as expired). -/
def rateLimitExpired (a : AntigravityAccount) (now : Nat) : Bool :=
  a.isRateLimited.getD false &&
    (match a.rateLimitedUntil with
     | some t => t != 0 && decide (t ≤ now)
     | none => false)

/-- The updates object of `clearExpiredRateLimits`:
`{ isRateLimited: false, rateLimitedUntil: undefined, failureCount: 0 }`. -/
def clearPatch : AccountPatch :=
  { isRateLimited := some (some false), rateLimitedUntil := some none,
    failureCount := some (some 0) }

/-- rotator.ts `clearExpiredRateLimits`: iterate over a snapshot of the store and
clear each expired rate limit through `updateAccount`. -/
def clearExpiredRateLimits (s : Store) (now : Nat) : Store :=
  List.foldl
    (fun st account =>
      if rateLimitExpired account now then updateAccount st account.email clearPatch
      else st)
    s s

/-- Stable insertion step: `x` is placed before the first `y` with `le x y`
(elements inserted earlier came later in the original list, so this is stable). -/
def jsSortInsert {α : Type} (le : α → α → Bool) (x : α) : List α → List α
  | [] => [x]
  | y :: ys => if le x y then x :: y :: ys else y :: jsSortInsert le x ys

/-- JS `Array.prototype.sort` with a consistent comparator: the unique stable sort
with respect to the total preorder `le` (ECMA-262 guarantees stability). -/
def jsSort {α : Type} (le : α → α → Bool) : List α → List α
  | [] => []
  | x :: xs => jsSortInsert le x (jsSort le xs)

/-- rotator.ts `selectRoundRobin` on the candidate list, threading the cursor. -/
def selectRoundRobin (accounts : List AntigravityAccount) (idx : Nat) :
    Option AntigravityAccount × Nat :=
  let i := if idx ≥ accounts.length then 0 else idx
  (accounts.get? i, (i + 1) % accounts.length)

/-- The comparator of `selectPriority`: `(b.priority || 1) - (a.priority || 1)`,
i.e. descending effective priority. -/
def priorityLe (a b : AntigravityAccount) : Bool :=
  decide (priorityOr1 b.priority ≤ priorityOr1 a.priority)

/-- rotator.ts `selectPriority`: `accounts.sort((a, b) => (b.priority || 1) - (a.priority || 1))[0]`. -/
def selectPriority (accounts : List AntigravityAccount) : Option AntigravityAccount :=
  (jsSort priorityLe accounts).head?

/-- The comparator of `selectLeastUsed`: ascending `requestCount || 0`. -/
def requestCountLe (a b : AntigravityAccount) : Bool :=
  decide (orZero a.requestCount ≤ orZero b.requestCount)

/-- rotator.ts `selectLeastUsed`: sort ascending by `requestCount || 0`, take the head. -/
def selectLeastUsed (accounts : List AntigravityAccount) : Option AntigravityAccount :=
  (jsSort requestCountLe accounts).head?

/-- rotator.ts `selectFailover`: `accounts[0]`. -/
def selectFailover (accounts : List AntigravityAccount) : Option AntigravityAccount :=
  accounts.head?

/-- The mutable per-rotator state: configured strategy and round-robin cursor. -/
structure RotatorState where
  strategy : RotationStrategy := RotationStrategy.roundRobin
  currentRoundRobinIndex : Nat := 0
deriving Repr, DecidableEq

/-- The candidate filter of `getNextAccount`: `accounts.filter(a => !a.isRateLimited)`. -/
def availableAccounts (s : Store) : List AntigravityAccount :=
  s.filter (fun a => !a.isRateLimited.getD false)

/-- rotator.ts `getNextAccount`: clear expired rate limits, filter to available
accounts, apply the configured strategy.  Returns the selected account together
with the resulting store and rotator state. -/
def getNextAccount (s : Store) (rot : RotatorState) (now : Nat) :
    Option AntigravityAccount × Store × RotatorState :=
  let s1 := clearExpiredRateLimits s now
  let available := availableAccounts s1
  if available.isEmpty then (none, s1, rot)
  else
    match rot.strategy with
    | RotationStrategy.roundRobin =>
        let r := selectRoundRobin available rot.currentRoundRobinIndex
        (r.1, s1, { rot with currentRoundRobinIndex := r.2 })
    | RotationStrategy.priority => (selectPriority available, s1, rot)
    | RotationStrategy.leastUsed => (selectLeastUsed available, s1, rot)
    | RotationStrategy.failover => (selectFailover available, s1, rot)

/-- rotator.ts `reportSuccess`. -/
def reportSuccess (s : Store) (email : String) (now : Nat) : Store :=
  match getAccount s email with
  | none => s
  | some account =>
      updateAccount s email
        { requestCount := some (some (orZero account.requestCount + 1)),
          failureCount := some (some 0),
          lastUsed := some (some now),
          isRateLimited := some (some false),
          rateLimitedUntil := some none }

/-- rotator.ts `reportFailure`: increment the failure count, stamp `lastUsed`,
rate-limit on `isRateLimit || circuitBroken`; returns `circuitBroken`. -/
def reportFailure (s : Store) (email : String) (isRateLimit : Bool)
    (cooldownMs : Nat) (now : Nat) : Bool × Store :=
  match getAccount s email with
  | none => (false, s)
  | some account =>
      let newFailureCount := orZero account.failureCount + 1
      let circuitBroken := decide (newFailureCount ≥ CIRCUIT_BREAKER_THRESHOLD)
      let updates : AccountPatch :=
        if isRateLimit || circuitBroken then
          { failureCount := some (some newFailureCount),
            lastUsed := some (some now),
            isRateLimited := some (some true),
            rateLimitedUntil := some (some (now + cooldownMs)) }
        else
          { failureCount := some (some newFailureCount),
            lastUsed := some (some now) }
      (circuitBroken, updateAccount s email updates)

/-- rotator.ts `handle429` cooldown: `retryAfterMs || RATE_LIMIT_COOLDOWN_MS`
(a supplied `0` is falsy and falls back to the default). -/
def cooldown429 (retryAfterMs : Option Nat) : Nat :=
  match retryAfterMs with
  | some n => if n = 0 then RATE_LIMIT_COOLDOWN_MS else n
  | none => RATE_LIMIT_COOLDOWN_MS

/-- rotator.ts `handle429`: rate-limit the failing account, then select next. -/
def handle429 (s : Store) (rot : RotatorState) (currentEmail : String)
    (retryAfterMs : Option Nat) (now : Nat) :
    Option AntigravityAccount × Store × RotatorState :=
  let r := reportFailure s currentEmail true (cooldown429 retryAfterMs) now
  getNextAccount r.2 rot now

/-- Result record of `handle401`. -/
structure Handle401Result where
  shouldRetry : Bool
  newAccount : Option AntigravityAccount
deriving Repr, DecidableEq

/-- rotator.ts `handle401`: bump the failure count; retry the same account while
below `MAX_401_RETRIES`, otherwise report failure and switch. -/
def handle401 (s : Store) (rot : RotatorState) (currentEmail : String) (now : Nat) :
    Handle401Result × Store × RotatorState :=
  match getAccount s currentEmail with
  | none =>
      let r := getNextAccount s rot now
      ({ shouldRetry := false, newAccount := r.1 }, r.2.1, r.2.2)
  | some account =>
      let failureCount := orZero account.failureCount + 1
      let s1 := updateAccount s currentEmail
        { failureCount := some (some failureCount), lastUsed := some (some now) }
      if failureCount < MAX_401_RETRIES then
        ({ shouldRetry := true, newAccount := none }, s1, rot)
      else
        let r := reportFailure s1 currentEmail false RATE_LIMIT_COOLDOWN_MS now
        let n := getNextAccount r.2 rot now
        ({ shouldRetry := false, newAccount := n.1 }, n.2.1, n.2.2)

/-- rotator.ts `handle403`: force-disable for one hour, then select next. -/
def handle403 (s : Store) (rot : RotatorState) (currentEmail : String) (now : Nat) :
    Option AntigravityAccount × Store × RotatorState :=
  let longCooldown := 60 * 60 * 1000
  let s1 := updateAccount s currentEmail
    { isRateLimited := some (some true),
      rateLimitedUntil := some (some (now + longCooldown)),
      failureCount := some (some CIRCUIT_BREAKER_THRESHOLD) }
  getNextAccount s1 rot now

/-- Result record of `handle5xx`. -/
structure Handle5xxResult where
  shouldRetry : Bool
  delay : Nat
deriving Repr, DecidableEq

/-- rotator.ts `handle5xx`: while the incremented failure count is below the
breaker threshold, retry with delay `2^(failureCount-1) * 1000`; otherwise
report failure (no retry). -/
def handle5xx (s : Store) (currentEmail : String) (now : Nat) :
    Handle5xxResult × Store :=
  let failureCount := orZero ((getAccount s currentEmail).bind (fun a => a.failureCount)) + 1
  if failureCount < CIRCUIT_BREAKER_THRESHOLD then
    let s1 := updateAccount s currentEmail { failureCount := some (some failureCount) }
    ({ shouldRetry := true, delay := 2 ^ (failureCount - 1) * 1000 }, s1)
  else
    let r := reportFailure s currentEmail false RATE_LIMIT_COOLDOWN_MS now
    ({ shouldRetry := false, delay := 0 }, r.2)

/-- plugin: `TOKEN_EXPIRY_THRESHOLD_MS = 5 * 60 * 1000`. -/
def TOKEN_EXPIRY_THRESHOLD_MS : Int := 5 * 60 * 1000

/-- rotator.ts `getAccountsNeedingRefresh`:
`accounts.filter(a => !a.isRateLimited && a.expiresAt && (a.expiresAt - now) < thresholdMs)`
(`expiresAt === 0` is falsy and therefore never selected). -/
def getAccountsNeedingRefresh (s : Store) (thresholdMs : Int) (now : Nat) :
    List AntigravityAccount :=
  s.filter (fun a =>
    !a.isRateLimited.getD false &&
    a.expiresAt != 0 &&
    decide ((a.expiresAt : Int) - (now : Int) < thresholdMs))

/-- rotator.ts `updateAccountTokens`. -/
def updateAccountTokens (s : Store) (email accessToken : String)
    (expiresAt : Nat) (now : Nat) : Store :=
  updateAccount s email
    { accessToken := some accessToken, expiresAt := some expiresAt,
      lastRefreshed := some (some now), failureCount := some (some 0) }

/-- One iteration of the plugin `refreshAllTokens` loop for one selected account:
on a successful token exchange update the tokens, on error report a failure.
The external `refreshAccessToken` call is abstracted by `outcome`. -/
def refreshStep (outcome : AntigravityAccount → Option (String × Nat)) (now : Nat)
    (st : Store) (account : AntigravityAccount) : Store :=
  match outcome account with
  | some tokens => updateAccountTokens st account.email tokens.1 tokens.2 now
  | none => (reportFailure st account.email false RATE_LIMIT_COOLDOWN_MS now).2

/-- plugin `refreshAllTokens` (one sweep tick): query the accounts needing
refresh, then refresh each in turn. -/
def refreshAllTokens (s : Store) (thresholdMs : Int)
    (outcome : AntigravityAccount → Option (String × Nat)) (now : Nat) : Store :=
  let accounts := getAccountsNeedingRefresh s thresholdMs now
  accounts.foldl (refreshStep outcome now) s

/-- plugin `createResponseInterceptor` action values. -/
inductive InterceptAction where
  | cont
  | retry
  | switch
  | fail
deriving Repr, DecidableEq

/-- plugin `handleResponse` result record. -/
structure InterceptResult where
  action : InterceptAction
  newCredentials : Option AntigravityAccount := none
  delay : Option Nat := none
deriving Repr, DecidableEq

/-- plugin `createResponseInterceptor.handleResponse`: map an HTTP status code to
a rotator action. -/
def handleResponse (s : Store) (rot : RotatorState) (status : Nat)
    (currentEmail : String) (retryAfterMs : Option Nat) (now : Nat) :
    InterceptResult × Store × RotatorState :=
  if 200 ≤ status ∧ status < 300 then
    ({ action := InterceptAction.cont }, reportSuccess s currentEmail now, rot)
  else if status = 429 then
    let r := handle429 s rot currentEmail retryAfterMs now
    match r.1 with
    | some a => ({ action := InterceptAction.switch, newCredentials := some a }, r.2)
    | none => ({ action := InterceptAction.fail }, r.2)
  else if status = 401 then
    let r := handle401 s rot currentEmail now
    if r.1.shouldRetry then
      ({ action := InterceptAction.retry, delay := some 1000 }, r.2)
    else
      match r.1.newAccount with
      | some a => ({ action := InterceptAction.switch, newCredentials := some a }, r.2)
      | none => ({ action := InterceptAction.fail }, r.2)
  else if status = 403 then
    let r := handle403 s rot currentEmail now
    match r.1 with
    | some a => ({ action := InterceptAction.switch, newCredentials := some a }, r.2)
    | none => ({ action := InterceptAction.fail }, r.2)
  else if 500 ≤ status ∧ status < 600 then
    let r := handle5xx s currentEmail now
    if r.1.shouldRetry then
      ({ action := InterceptAction.retry, delay := some r.1.delay }, r.2, rot)
    else
      let n := getNextAccount r.2 rot now
      match n.1 with
      | some a => ({ action := InterceptAction.switch, newCredentials := some a }, n.2)
      | none => ({ action := InterceptAction.fail }, n.2)
  else
    ({ action := InterceptAction.cont },
      (reportFailure s currentEmail false RATE_LIMIT_COOLDOWN_MS now).2, rot)

/-! Auxiliary definitions used to state and prove properties of the embedding. -/

/-- The effect of one `clearExpiredRateLimits` loop iteration (processing snapshot
entry `a`) on a single stored account `x`. -/
def clearStep (now : Nat) (x a : AntigravityAccount) : AntigravityAccount :=
  if rateLimitExpired a now && x.email == a.email then applyPatch x clearPatch else x

/-- The cumulative effect of the `clearExpiredRateLimits` loop over snapshot `l`
on a single stored account `x`. -/
def clearFold (now : Nat) (l : List AntigravityAccount) (x : AntigravityAccount) :
    AntigravityAccount :=
  l.foldl (fun y a => clearStep now y a) x

/-- The first element of a list attaining the maximal value of `f`
(ties resolved towards the earlier element). -/
def firstMaxBy (f : AntigravityAccount → Int) :
    List AntigravityAccount → Option AntigravityAccount
  | [] => none
  | x :: xs =>
    match firstMaxBy f xs with
    | none => some x
    | some m => if f m ≤ f x then some x else some m

/-- A fresh demonstration account. -/
def accA : AntigravityAccount :=
  { email := "a@x", accessToken := "tA", refreshToken := "rA", expiresAt := 1000000 }

/-- A second fresh demonstration account. -/
def accB : AntigravityAccount :=
  { email := "b@x", accessToken := "tB", refreshToken := "rB", expiresAt := 1000000 }

/-- `accA`, rate-limited until time 5. -/
def accARL5 : AntigravityAccount :=
  { accA with isRateLimited := some true, rateLimitedUntil := some 5 }

/-- `accA`, rate-limited with `rateLimitedUntil = 0` (falsy in JS). -/
def accARL0 : AntigravityAccount :=
  { accA with isRateLimited := some true, rateLimitedUntil := some 0 }

/-- `accA`, rate-limited until time 50. -/
def accARL50 : AntigravityAccount :=
  { accA with isRateLimited := some true, rateLimitedUntil := some 50 }

/-- The record obtained by clearing an expired rate limit on `a`. -/
def clearedOf (a : AntigravityAccount) : AntigravityAccount :=
  { a with isRateLimited := some false, rateLimitedUntil := none,
           failureCount := some 0 }

/-- Demonstration account with priority 1 and late `lastUsed`. -/
def accP1L100 : AntigravityAccount :=
  { accA with priority := some 1, lastUsed := some 100 }

/-- Demonstration account with priority 1 and early `lastUsed`. -/
def accP1L50 : AntigravityAccount :=
  { accB with priority := some 1, lastUsed := some 50 }

/-- A rotator configured with the priority strategy. -/
def rotPriority : RotatorState := { strategy := RotationStrategy.priority }

/-- `accB`, rate-limited far into the future. -/
def accBRLfar : AntigravityAccount :=
  { accB with isRateLimited := some true, rateLimitedUntil := some 999999999 }

/-- `accA` with `expiresAt = 0` (falsy in JS). -/
def accExp0 : AntigravityAccount := { accA with expiresAt := 0 }


/-! Basic lemmas about the account store. -/

/-- The object-spread merge never changes the key. -/
theorem applyPatch_email (a : AntigravityAccount) (p : AccountPatch) :
    (applyPatch a p).email = a.email := rfl

/-- A looked-up account carries the requested key. -/
theorem getAccount_email (s : Store) (e : String) (a : AntigravityAccount)
    (h : getAccount s e = some a) : a.email = e := by
  have := List.find?_some h
  simpa using this

/-- A looked-up account is a member of the store. -/
theorem getAccount_mem (s : Store) (e : String) (a : AntigravityAccount)
    (h : getAccount s e = some a) : a ∈ s :=
  List.mem_of_find?_eq_some h

/-- Lookup after a keyed merge: the patched entry under the written key, the old
entry under every other key. -/
theorem getAccount_updateAccount (s : Store) (e e' : String) (p : AccountPatch) :
    getAccount (updateAccount s e p) e' =
      if e' = e then (getAccount s e).map (fun x => applyPatch x p)
      else getAccount s e' := by
  induction s with
  | nil => by_cases h : e' = e <;> simp [getAccount, updateAccount, h]
  | cons a t ih =>
      have hmap : updateAccount (a :: t) e p
          = (if a.email == e then applyPatch a p else a) :: updateAccount t e p := rfl
      by_cases hae : a.email = e <;> by_cases he' : e' = e <;>
        simp only [hmap, getAccount, hae, he', beq_self_eq_true, if_true, if_false,
          beq_iff_eq, ite_true, ite_false] at ih ⊢
      · rw [List.find?_cons_of_pos _ (by simp [applyPatch_email, hae]),
          List.find?_cons_of_pos _ (by simp [hae])]
        rfl
      · rw [List.find?_cons_of_neg _
            (by simp only [applyPatch_email, hae, beq_iff_eq]
                exact fun hh => he' hh.symm),
          List.find?_cons_of_neg _
            (by simp only [hae, beq_iff_eq]; exact fun hh => he' hh.symm)]
        simpa using ih
      · rw [List.find?_cons_of_neg _ (by simp [hae]),
          List.find?_cons_of_neg _ (by simp [hae])]
        simpa using ih
      · by_cases hx : a.email = e'
        · rw [List.find?_cons_of_pos _ (by simp [hx]),
            List.find?_cons_of_pos _ (by simp [hx])]
        · rw [List.find?_cons_of_neg _ (by simp [hx]),
            List.find?_cons_of_neg _ (by simp [hx])]
          simpa using ih

/-! Characterisation of `clearExpiredRateLimits` as a pointwise map. -/

/-- One loop iteration acts pointwise on the evolving store. -/
theorem clearIter_eq_map (now : Nat) (st : Store) (a : AntigravityAccount) :
    (if rateLimitExpired a now then updateAccount st a.email clearPatch else st)
      = st.map (fun x => clearStep now x a) := by
  by_cases h : rateLimitExpired a now
  · simp only [h, if_true, updateAccount, clearStep, Bool.true_and]
  · simp only [h, if_false, clearStep, Bool.false_and, Bool.false_eq_true, ite_false]
    exact (List.map_id' st).symm

/-- `clearStep` never changes the key. -/
theorem clearStep_email (now : Nat) (x a : AntigravityAccount) :
    (clearStep now x a).email = x.email := by
  unfold clearStep
  split
  · exact applyPatch_email x clearPatch
  · rfl

/-- `clearFold` never changes the key. -/
theorem clearFold_email (now : Nat) (l : List AntigravityAccount)
    (x : AntigravityAccount) : (clearFold now l x).email = x.email := by
  induction l generalizing x with
  | nil => rfl
  | cons a l ih =>
      show (clearFold now l (clearStep now x a)).email = x.email
      rw [ih, clearStep_email]

/-- An account whose key matches no snapshot entry is left untouched by the loop. -/
theorem clearFold_of_ne (now : Nat) (l : List AntigravityAccount)
    (x : AntigravityAccount) (h : ∀ a ∈ l, x.email ≠ a.email) :
    clearFold now l x = x := by
  induction l with
  | nil => rfl
  | cons a l ih =>
      show clearFold now l (clearStep now x a) = x
      have hx : clearStep now x a = x := by
        unfold clearStep
        rw [if_neg]
        simp only [Bool.and_eq_true, beq_iff_eq, not_and]
        exact fun _ => h a (by simp)
      rw [hx]
      exact ih (fun b hb => h b (by simp [hb]))

/-- The loop over any snapshot acts as a pointwise map on the evolving store. -/
theorem clearFoldAux (now : Nat) (l : List AntigravityAccount) :
    ∀ st : Store,
      List.foldl
        (fun st account =>
          if rateLimitExpired account now then updateAccount st account.email clearPatch
          else st) st l
        = st.map (clearFold now l) := by
  induction l with
  | nil =>
      intro st
      have h1 : List.map (clearFold now []) st
          = List.map (fun x : AntigravityAccount => x) st :=
        List.map_congr_left (fun a _ => rfl)
      rw [h1, List.map_id', List.foldl_nil]
  | cons a l ih =>
      intro st
      rw [List.foldl_cons, clearIter_eq_map, ih, List.map_map]
      apply List.map_congr_left
      intro x _
      rfl

/-- The whole sweep is the pointwise `clearFold` map over the snapshot. -/
theorem clearExpired_eq_map (s : Store) (now : Nat) :
    clearExpiredRateLimits s now = s.map (clearFold now s) :=
  clearFoldAux now s s

/-- Lookup skips a prefix of entries with other keys. -/
theorem getAccount_append_of_ne (l1 rest : Store) (e : String)
    (h : ∀ x ∈ l1, x.email ≠ e) :
    getAccount (l1 ++ rest) e = getAccount rest e := by
  induction l1 with
  | nil => rfl
  | cons a t ih =>
      show List.find? _ (a :: (t ++ rest)) = _
      rw [List.find?_cons_of_neg _ (by simp [h a (by simp)])]
      exact ih (fun x hx => h x (by simp [hx]))

/-- Lookup in the lazily-cleared store: under key uniqueness, a stored account is
cleared exactly when its rate limit is expired, and is otherwise untouched. -/
theorem getAccount_clearExpired (s : Store) (now : Nat) (b : AntigravityAccount)
    (hnd : (s.map AntigravityAccount.email).Nodup) (hmem : b ∈ s) :
    getAccount (clearExpiredRateLimits s now) b.email
      = some (if rateLimitExpired b now then applyPatch b clearPatch else b) := by
  obtain ⟨l1, l2, rfl⟩ := List.append_of_mem hmem
  have hnd' : ((l1.map AntigravityAccount.email)
      ++ b.email :: l2.map AntigravityAccount.email).Nodup := by
    simpa using hnd
  rw [List.nodup_append] at hnd'
  obtain ⟨hnd1, hnd2, hdisj⟩ := hnd'
  have h1 : ∀ a ∈ l1, b.email ≠ a.email := by
    intro a ha heq
    exact hdisj (List.mem_map_of_mem _ ha) (by simp [heq])
  have h2 : ∀ a ∈ l2, b.email ≠ a.email := by
    intro a ha heq
    exact (List.nodup_cons.mp hnd2).1 (heq ▸ List.mem_map_of_mem _ ha)
  rw [clearExpired_eq_map, List.map_append, List.map_cons]
  rw [getAccount_append_of_ne _ _ _
    (by
      intro x hx
      obtain ⟨a, ha, rfl⟩ := List.mem_map.mp hx
      rw [clearFold_email]
      exact fun hh => h1 a ha hh.symm)]
  unfold getAccount
  rw [List.find?_cons_of_pos _ (by simp [clearFold_email])]
  have hfold : clearFold now (l1 ++ b :: l2) b
      = if rateLimitExpired b now then applyPatch b clearPatch else b := by
    unfold clearFold
    rw [List.foldl_append]
    rw [show List.foldl (fun y a => clearStep now y a) b l1 = b from
      clearFold_of_ne now l1 b h1]
    rw [List.foldl_cons]
    have hb : clearStep now b b
        = if rateLimitExpired b now then applyPatch b clearPatch else b := by
      unfold clearStep
      by_cases hx : rateLimitExpired b now <;> simp [hx]
    rw [hb]
    by_cases hx : rateLimitExpired b now
    · rw [if_pos hx]
      exact clearFold_of_ne now l2 _
        (by intro a ha; rw [applyPatch_email]; exact h2 a ha)
    · rw [if_neg hx]
      exact clearFold_of_ne now l2 b h2
  rw [hfold]

/-! Lemmas about the stable sort and the selection strategies. -/

/-- Membership is preserved by the insertion step. -/
theorem mem_jsSortInsert {α : Type} (le : α → α → Bool) (x : α) (l : List α)
    (a : α) : a ∈ jsSortInsert le x l ↔ a = x ∨ a ∈ l := by
  induction l with
  | nil => simp [jsSortInsert]
  | cons y ys ih =>
      unfold jsSortInsert
      split
      · simp
      · simp only [List.mem_cons, ih]
        tauto

/-- Membership is preserved by the sort. -/
theorem mem_jsSort {α : Type} (le : α → α → Bool) (l : List α) (a : α) :
    a ∈ jsSort le l ↔ a ∈ l := by
  induction l with
  | nil => simp [jsSort]
  | cons x xs ih => simp [jsSort, mem_jsSortInsert, ih]

/-- The insertion step never produces the empty list. -/
theorem jsSortInsert_ne_nil {α : Type} (le : α → α → Bool) (x : α) (l : List α) :
    jsSortInsert le x l ≠ [] := by
  cases l with
  | nil => simp [jsSortInsert]
  | cons y ys =>
      unfold jsSortInsert
      split <;> simp

/-- Sorting a nonempty list yields a nonempty list. -/
theorem jsSort_ne_nil {α : Type} (le : α → α → Bool) (l : List α) (h : l ≠ []) :
    jsSort le l ≠ [] := by
  cases l with
  | nil => exact absurd rfl h
  | cons x xs => exact jsSortInsert_ne_nil le x (jsSort le xs)

/-- `firstMaxBy` is `none` exactly on the empty list. -/
theorem firstMaxBy_eq_none (f : AntigravityAccount → Int)
    (l : List AntigravityAccount) : firstMaxBy f l = none ↔ l = [] := by
  cases l with
  | nil => simp [firstMaxBy]
  | cons x xs =>
      unfold firstMaxBy
      cases firstMaxBy f xs
      · simp
      · simp only [List.cons_ne_nil, iff_false]
        split <;> simp

/-- The head of the stable descending-priority sort is the first element of the
original list attaining the maximal effective priority. -/
theorem selectPriority_eq_firstMaxBy (l : List AntigravityAccount) :
    selectPriority l = firstMaxBy (fun a => priorityOr1 a.priority) l := by
  unfold selectPriority
  induction l with
  | nil => simp [jsSort, firstMaxBy]
  | cons x xs ih =>
      show (jsSortInsert priorityLe x (jsSort priorityLe xs)).head? = _
      unfold firstMaxBy
      cases h : jsSort priorityLe xs with
      | nil =>
          have h0 : firstMaxBy (fun a => priorityOr1 a.priority) xs = none := by
            rw [← ih, h]
            rfl
          rw [h0]
          simp [jsSortInsert]
      | cons y ys =>
          have h0 : firstMaxBy (fun a => priorityOr1 a.priority) xs = some y := by
            rw [← ih, h]
            rfl
          rw [h0]
          unfold jsSortInsert priorityLe
          by_cases hc : priorityOr1 y.priority ≤ priorityOr1 x.priority <;>
            simp [hc]

/-- Specification of `firstMaxBy`: the result is a member, attains the maximum,
and strictly beats every earlier element. -/
theorem firstMaxBy_spec (f : AntigravityAccount → Int)
    (l : List AntigravityAccount) (c : AntigravityAccount)
    (h : firstMaxBy f l = some c) :
    c ∈ l ∧ (∀ b ∈ l, f b ≤ f c) ∧
      ∃ i, l.get? i = some c ∧
        ∀ j b, j < i → l.get? j = some b → f b < f c := by
  induction l generalizing c with
  | nil => simp [firstMaxBy] at h
  | cons x xs ih =>
      unfold firstMaxBy at h
      cases hm : firstMaxBy f xs with
      | none =>
          rw [hm] at h
          dsimp only at h
          have hxs : xs = [] := (firstMaxBy_eq_none f xs).mp hm
          subst hxs
          cases h
          exact ⟨by simp, by simp, 0, by simp,
            fun j b hj _ => absurd hj (Nat.not_lt_zero j)⟩
      | some m =>
          rw [hm] at h
          dsimp only at h
          obtain ⟨hmem, hmax, i, hi, hlt⟩ := ih m hm
          by_cases hc : f m ≤ f x
          · rw [if_pos hc] at h
            cases h
            refine ⟨by simp, ?_, 0, by simp,
              fun j b hj _ => absurd hj (Nat.not_lt_zero j)⟩
            intro b hb
            rcases List.mem_cons.mp hb with hb | hb
            · subst hb; exact le_refl _
            · exact le_trans (hmax b hb) hc
          · rw [if_neg hc] at h
            cases h
            have hxm : f x < f c := lt_of_not_le hc
            refine ⟨by simp [hmem], ?_, i + 1, by simpa using hi, ?_⟩
            · intro b hb
              rcases List.mem_cons.mp hb with hb | hb
              · subst hb; exact le_of_lt hxm
              · exact hmax b hb
            · intro j b hj hb
              cases j with
              | zero =>
                  simp only [List.get?_cons_zero, Option.some.injEq] at hb
                  subst hb
                  exact hxm
              | succ j' =>
                  rw [List.get?_cons_succ] at hb
                  exact hlt j' b (Nat.lt_of_succ_lt_succ hj) hb

/-- The round-robin pick is a member of the candidate list. -/
theorem selectRoundRobin_mem (accounts : List AntigravityAccount) (idx : Nat)
    (c : AntigravityAccount) (h : (selectRoundRobin accounts idx).1 = some c) :
    c ∈ accounts := by
  unfold selectRoundRobin at h
  exact List.get?_mem h

/-- The round-robin pick exists whenever the candidate list is nonempty. -/
theorem selectRoundRobin_isSome (accounts : List AntigravityAccount) (idx : Nat)
    (h : accounts ≠ []) : ∃ c, (selectRoundRobin accounts idx).1 = some c := by
  unfold selectRoundRobin
  dsimp only
  have hpos : 0 < accounts.length := List.length_pos.mpr h
  have hlt : (if idx ≥ accounts.length then 0 else idx) < accounts.length := by
    by_cases hge : idx ≥ accounts.length
    · simpa [hge] using hpos
    · simpa [hge] using Nat.lt_of_not_le (fun hle => hge hle)
  exact ⟨accounts.get ⟨_, hlt⟩, List.get?_eq_get hlt⟩

/-- Whatever the strategy, a selected account is one of the available candidates. -/
theorem getNextAccount_mem (s : Store) (rot : RotatorState) (now : Nat)
    (c : AntigravityAccount) (h : (getNextAccount s rot now).1 = some c) :
    c ∈ availableAccounts (clearExpiredRateLimits s now) := by
  unfold getNextAccount at h
  dsimp only at h
  split at h
  · exact absurd h (by simp)
  · split at h
    · exact selectRoundRobin_mem _ _ _ h
    · rw [show (selectPriority (availableAccounts (clearExpiredRateLimits s now)), clearExpiredRateLimits s now, rot).1 = selectPriority (availableAccounts (clearExpiredRateLimits s now)) from rfl] at h
      unfold selectPriority at h
      exact (mem_jsSort _ _ c).mp (List.mem_of_mem_head? h)
    · unfold selectLeastUsed at h
      exact (mem_jsSort _ _ c).mp (List.mem_of_mem_head? h)
    · unfold selectFailover at h
      exact List.mem_of_mem_head? h

/-- Whatever the strategy, selection succeeds when a candidate is available. -/
theorem getNextAccount_some (s : Store) (rot : RotatorState) (now : Nat)
    (h : availableAccounts (clearExpiredRateLimits s now) ≠ []) :
    ∃ c, (getNextAccount s rot now).1 = some c := by
  unfold getNextAccount
  dsimp only
  rw [if_neg (by simpa [List.isEmpty_iff] using h)]
  cases rot.strategy
  · exact selectRoundRobin_isSome _ rot.currentRoundRobinIndex h
  · cases hh : (jsSort priorityLe (availableAccounts (clearExpiredRateLimits s now))).head? with
    | none => exact absurd (List.head?_eq_none_iff.mp hh) (jsSort_ne_nil priorityLe _ h)
    | some v => exact ⟨v, hh⟩
  · cases hh : (jsSort requestCountLe (availableAccounts (clearExpiredRateLimits s now))).head? with
    | none => exact absurd (List.head?_eq_none_iff.mp hh) (jsSort_ne_nil requestCountLe _ h)
    | some v => exact ⟨v, hh⟩
  · cases hh : (availableAccounts (clearExpiredRateLimits s now)).head? with
    | none => exact absurd (List.head?_eq_none_iff.mp hh) h
    | some v => exact ⟨v, hh⟩

/-- `getNextAccount` returns the lazily-cleared store, whatever the strategy. -/
theorem getNextAccount_store (s : Store) (rot : RotatorState) (now : Nat) :
    (getNextAccount s rot now).2.1 = clearExpiredRateLimits s now := by
  unfold getNextAccount
  dsimp only
  split
  · rfl
  · split <;> rfl

/-- Pointwise value of the clearing loop on a stored account, under key
uniqueness: cleared when expired, untouched otherwise. -/
theorem clearFold_mem (s : Store) (now : Nat) (b : AntigravityAccount)
    (hnd : (s.map AntigravityAccount.email).Nodup) (hmem : b ∈ s) :
    clearFold now s b
      = if rateLimitExpired b now then applyPatch b clearPatch else b := by
  obtain ⟨l1, l2, rfl⟩ := List.append_of_mem hmem
  have hnd' : ((l1.map AntigravityAccount.email)
      ++ b.email :: l2.map AntigravityAccount.email).Nodup := by
    simpa using hnd
  rw [List.nodup_append] at hnd'
  obtain ⟨hnd1, hnd2, hdisj⟩ := hnd'
  have h1 : ∀ a ∈ l1, b.email ≠ a.email := by
    intro a ha heq
    exact hdisj (List.mem_map_of_mem _ ha) (by simp [heq])
  have h2 : ∀ a ∈ l2, b.email ≠ a.email := by
    intro a ha heq
    exact (List.nodup_cons.mp hnd2).1 (heq ▸ List.mem_map_of_mem _ ha)
  unfold clearFold
  rw [List.foldl_append]
  rw [show List.foldl (fun y a => clearStep now y a) b l1 = b from
    clearFold_of_ne now l1 b h1]
  rw [List.foldl_cons]
  have hb : clearStep now b b
      = if rateLimitExpired b now then applyPatch b clearPatch else b := by
    unfold clearStep
    by_cases hx : rateLimitExpired b now <;> simp [hx]
  rw [hb]
  by_cases hx : rateLimitExpired b now
  · rw [if_pos hx]
    exact clearFold_of_ne now l2 _
      (by intro a ha; rw [applyPatch_email]; exact h2 a ha)
  · rw [if_neg hx]
    exact clearFold_of_ne now l2 b h2

/-! Per-call effect of `reportFailure`. -/

/-- Effect of one `reportFailure` call on the reported account's stored record. -/
theorem reportFailure_getAccount (s : Store) (e : String) (a : AntigravityAccount)
    (ha : getAccount s e = some a) (irl : Bool) (cd now : Nat) :
    getAccount (reportFailure s e irl cd now).2 e =
      some { a with
        failureCount := some (orZero a.failureCount + 1),
        lastUsed := some now,
        isRateLimited :=
          if irl || decide (orZero a.failureCount + 1 ≥ CIRCUIT_BREAKER_THRESHOLD)
          then some true else a.isRateLimited,
        rateLimitedUntil :=
          if irl || decide (orZero a.failureCount + 1 ≥ CIRCUIT_BREAKER_THRESHOLD)
          then some (now + cd) else a.rateLimitedUntil } := by
  unfold reportFailure
  rw [ha]
  dsimp only
  rw [getAccount_updateAccount, if_pos rfl, ha]
  by_cases hc : irl || decide (orZero a.failureCount + 1 ≥ CIRCUIT_BREAKER_THRESHOLD)
  · rw [if_pos hc, if_pos hc, if_pos hc]
    rfl
  · rw [if_neg hc, if_neg hc, if_neg hc]
    rfl

/-- C1: for an account present in the store, `reportFailure` increments its
`failureCount`, stamps `lastUsed := now`, and sets `isRateLimited := true` with
`rateLimitedUntil := now + cooldownMs` exactly when `isRateLimit` is true or the
incremented count reaches the threshold 3; consequently three consecutive
failure reports leave the account rate-limited, while two consecutive plain
failure reports on a fresh account do not. -/
theorem reportFailure_circuit_breaker (s : Store) (e : String)
    (a : AntigravityAccount) (ha : getAccount s e = some a) (irl : Bool)
    (cd now : Nat) (i1 i2 i3 : Bool) (c1 c2 c3 n1 n2 n3 d1 d2 m1 m2 : Nat) :
    (getAccount (reportFailure s e irl cd now).2 e =
      some { a with
        failureCount := some (orZero a.failureCount + 1),
        lastUsed := some now,
        isRateLimited :=
          if irl || decide (orZero a.failureCount + 1 ≥ 3) then some true
          else a.isRateLimited,
        rateLimitedUntil :=
          if irl || decide (orZero a.failureCount + 1 ≥ 3) then some (now + cd)
          else a.rateLimitedUntil }) ∧
    (∃ x, getAccount (reportFailure (reportFailure (reportFailure s e i1 c1 n1).2
        e i2 c2 n2).2 e i3 c3 n3).2 e = some x ∧ x.isRateLimited = some true) ∧
    (orZero a.failureCount = 0 → a.isRateLimited.getD false = false →
      ∃ y, getAccount (reportFailure (reportFailure s e false d1 m1).2
          e false d2 m2).2 e = some y ∧ y.isRateLimited.getD false = false) := by
  refine ⟨?_, ?_, ?_⟩
  · simpa [CIRCUIT_BREAKER_THRESHOLD] using
      reportFailure_getAccount s e a ha irl cd now
  · have h1 := reportFailure_getAccount s e a ha i1 c1 n1
    have h2 := reportFailure_getAccount _ e _ h1 i2 c2 n2
    have h3 := reportFailure_getAccount _ e _ h2 i3 c3 n3
    refine ⟨_, h3, ?_⟩
    simp only [orZero, Option.getD_some]
    have hge : 3 ≤ a.failureCount.getD 0 + 1 + 1 + 1 := by omega
    simp [CIRCUIT_BREAKER_THRESHOLD, hge]
  · intro h0 hrl
    have h1 := reportFailure_getAccount s e a ha false d1 m1
    rw [h0] at h1
    simp only [CIRCUIT_BREAKER_THRESHOLD, Bool.false_or, ge_iff_le,
      show (decide (3 ≤ 0 + 1)) = false from rfl, if_false, Bool.false_eq_true,
      ite_false] at h1
    have h2 := reportFailure_getAccount _ e _ h1 false d2 m2
    refine ⟨_, h2, ?_⟩
    simp [orZero, CIRCUIT_BREAKER_THRESHOLD, hrl]

/-- C1 witness: three consecutive failure reports on a fresh single-account
store leave the account rate-limited. -/
theorem reportFailure_circuit_breaker_witness :
    ∃ x, getAccount (reportFailure (reportFailure (reportFailure [accA]
        "a@x" false 60000 1).2 "a@x" false 60000 2).2 "a@x" false 60000 3).2
        "a@x" = some x ∧ x.isRateLimited = some true :=
  (reportFailure_circuit_breaker [accA] "a@x" accA (by decide) false 60000 5
    false false false 60000 60000 60000 1 2 3 0 0 0 0).2.1

/-- C2 counterexample: on a fresh account, a rate-limit report
(`isRateLimit = true`) returns `false` although the claim requires `true`
("the call itself was a rate-limit report"); and a fourth consecutive failure
(count beyond the threshold) returns `true` although the claim requires `false`
("reached exactly the threshold").  The code returns `newFailureCount >= 3`
and ignores `isRateLimit` in the return value. -/
theorem reportFailure_return_counterexample :
    (reportFailure [accA] "a@x" true 60000 5).1 = false ∧
    (reportFailure [{ accA with failureCount := some 3 }] "a@x"
      false 60000 5).1 = true := by
  constructor
  · decide
  · decide

/-- C2 (amended): `reportFailure` on a stored account returns `true` exactly
when the incremented failure count reaches or exceeds the breaker threshold 3 —
irrespective of `isRateLimit`, and also on failures beyond the threshold. -/
theorem reportFailure_return_iff (s : Store) (e : String)
    (a : AntigravityAccount) (ha : getAccount s e = some a) (irl : Bool)
    (cd now : Nat) :
    ((reportFailure s e irl cd now).1 = true ↔ orZero a.failureCount + 1 ≥ 3) := by
  unfold reportFailure
  rw [ha]
  simp [CIRCUIT_BREAKER_THRESHOLD]

/-- C2 witness: on an account with two recorded failures, the third report
trips the breaker. -/
theorem reportFailure_return_iff_witness :
    ((reportFailure [{ accA with failureCount := some 2 }] "a@x"
        false 60000 5).1 = true ↔
      orZero ({ accA with failureCount := some 2 } :
        AntigravityAccount).failureCount + 1 ≥ 3) :=
  reportFailure_return_iff [{ accA with failureCount := some 2 }] "a@x"
    { accA with failureCount := some 2 } (by decide) false 60000 5

/-- C10 counterexample: with "x@y" absent from the store, `reportSuccess` and
`reportFailure` complete normally — the store is unchanged and `reportFailure`
returns plain `false`, exactly the value a sub-threshold failure report on a
stored account returns — so no `UnknownAccount` error is surfaced to the caller
and the operations silently succeed, contradicting the claim. -/
theorem absent_email_silent_counterexample :
    getAccount ([] : Store) "x@y" = none ∧
    reportSuccess ([] : Store) "x@y" 5 = [] ∧
    reportFailure ([] : Store) "x@y" false 60000 5 = (false, []) ∧
    (reportFailure [accA] "a@x" false 60000 5).1 = false := by
  refine ⟨rfl, rfl, rfl, by decide⟩

/-- C10 (amended): operations referencing an email absent from the store are
silent no-ops: the store is left unchanged, `reportSuccess` returns normally
and `reportFailure` returns the ordinary `false` ("breaker not tripped")
result; no `UnknownAccount` error is surfaced. -/
theorem absent_email_noop (s : Store) (e : String) (now : Nat) (irl : Bool)
    (cd : Nat) (h : getAccount s e = none) :
    reportSuccess s e now = s ∧ reportFailure s e irl cd now = (false, s) := by
  unfold reportSuccess reportFailure
  rw [h]
  exact ⟨rfl, rfl⟩

/-- C10 witness: a store holding only `accA` is untouched by reports against an
unknown email. -/
theorem absent_email_noop_witness :
    reportSuccess ([accA] : Store) "zz@x" 7 = [accA] ∧
    reportFailure ([accA] : Store) "zz@x" true 60000 7 = (false, [accA]) :=
  absent_email_noop [accA] "zz@x" 7 true 60000 (by decide)

/-- C3 counterexample: a `getNextAccount` call does write to the account store.
With one account whose rate limit has expired (`rateLimitedUntil = 5 ≤ now = 10`),
the lazy clearing inside selection rewrites its persisted fields — the store
after the call differs from the store before it. -/
theorem getNextAccount_writes_counterexample :
    (getNextAccount [accARL5] {} 10).2.1 ≠ [accARL5] ∧
    getAccount (getNextAccount [accARL5] {} 10).2.1 "a@x"
      = some (clearedOf accA) := by
  constructor
  · decide
  · decide

/-- C3 (amended): the only store writes a `getNextAccount` call performs are
the lazy clearing of expired rate limits — under key uniqueness the resulting
store is exactly the pointwise clearing map over the old store, whatever the
strategy, and every account whose rate limit is not expired is still stored
unchanged after the call. -/
theorem getNextAccount_store_frame (s : Store) (rot : RotatorState) (now : Nat)
    (hnd : (s.map AntigravityAccount.email).Nodup) :
    ((getNextAccount s rot now).2.1
        = s.map (fun a =>
            if rateLimitExpired a now then applyPatch a clearPatch else a)) ∧
    (∀ b ∈ s, rateLimitExpired b now = false →
      getAccount (getNextAccount s rot now).2.1 b.email = some b) := by
  constructor
  · rw [getNextAccount_store, clearExpired_eq_map]
    exact List.map_congr_left (fun b hb => clearFold_mem s now b hnd hb)
  · intro b hb hexp
    rw [getNextAccount_store, getAccount_clearExpired s now b hnd hb, hexp]
    simp

/-- C3 witness: on a two-account store with nothing expired, selection leaves
every stored record unchanged. -/
theorem getNextAccount_store_frame_witness :
    (((getNextAccount [accA, accB] {} 10).2.1
        = List.map (fun a =>
            if rateLimitExpired a 10 then applyPatch a clearPatch else a)
            [accA, accB]) ∧
    (∀ b ∈ [accA, accB], rateLimitExpired b 10 = false →
      getAccount (getNextAccount [accA, accB] {} 10).2.1 b.email = some b)) :=
  getNextAccount_store_frame [accA, accB] {} 10 (by decide)

/-- C7 counterexample: an account with `isRateLimited = true` and
`rateLimitedUntil = 0` — a time at or before `now = 100` — is not treated as
available by the next `getNextAccount` call: `0` is falsy in the source guard
`account.isRateLimited && account.rateLimitedUntil && account.rateLimitedUntil <= now`,
so the account is never cleared and selection returns nothing. -/
theorem expired_zero_not_cleared_counterexample :
    (getNextAccount [accARL0] {} 100).1 = none ∧
    getAccount (getNextAccount [accARL0] {} 100).2.1 "a@x" = some accARL0 := by
  constructor
  · decide
  · decide

/-- C7 (amended): an account with `isRateLimited = true` whose
`rateLimitedUntil` is a nonzero time at or before `now` is treated as available
by the very next `getNextAccount` call: its flag is cleared, `rateLimitedUntil`
removed and `failureCount` reset to 0 before the candidate filter runs, and the
cleared record passes that filter. -/
theorem selectNext_clears_expired (s : Store) (rot : RotatorState) (now t : Nat)
    (b : AntigravityAccount) (hnd : (s.map AntigravityAccount.email).Nodup)
    (hmem : b ∈ s) (hrl : b.isRateLimited = some true)
    (hut : b.rateLimitedUntil = some t) (ht0 : t ≠ 0) (hle : t ≤ now) :
    getAccount (getNextAccount s rot now).2.1 b.email = some (clearedOf b) ∧
    clearedOf b ∈ availableAccounts (clearExpiredRateLimits s now) := by
  have hexp : rateLimitExpired b now = true := by
    simp [rateLimitExpired, hrl, hut, ht0, hle]
  have happ : applyPatch b clearPatch = clearedOf b := rfl
  constructor
  · rw [getNextAccount_store, getAccount_clearExpired s now b hnd hmem, hexp]
    simp [happ]
  · refine List.mem_filter.mpr ⟨?_, by simp [clearedOf]⟩
    rw [clearExpired_eq_map, ← happ]
    exact List.mem_map.mpr ⟨b, hmem,
      by rw [clearFold_mem s now b hnd hmem, hexp, if_pos rfl]⟩

/-- C7 witness: a single rate-limited account with `rateLimitedUntil = 50` is
cleared and made available by a selection at `now = 100`. -/
theorem selectNext_clears_expired_witness :
    (getAccount (getNextAccount [accARL50] {} 100).2.1 accARL50.email
        = some (clearedOf accARL50) ∧
      clearedOf accARL50
        ∈ availableAccounts (clearExpiredRateLimits [accARL50] 100)) :=
  selectNext_clears_expired [accARL50] {} 100 50 accARL50
    (by decide) (by decide) rfl rfl (by decide) (by decide)

/-- C6 counterexample: two available accounts share priority 1; the second has
the strictly earlier `lastUsed` (50 < 100), so the claim requires it to be
selected, but the code's stable sort keeps candidate-list order and
`getNextAccount` under the priority strategy returns the first account. -/
theorem selectPriority_tie_counterexample :
    (getNextAccount [accP1L100, accP1L50] rotPriority 0).1 = some accP1L100 ∧
    (getNextAccount [accP1L100, accP1L50] rotPriority 0).1 ≠ some accP1L50 ∧
    priorityOr1 accP1L100.priority = priorityOr1 accP1L50.priority ∧
    accP1L100.lastUsed = some 100 ∧ accP1L50.lastUsed = some 50 := by
  refine ⟨by decide, by decide, by decide, rfl, rfl⟩

/-- C6 (amended): under the priority strategy, a selected account is an
available candidate attaining the maximal effective priority (`priority || 1`,
so missing or 0 priority counts as 1), and ties are broken by the earliest
position in the candidate list (store insertion order), not by `lastUsed` or
key order: every earlier candidate has strictly smaller effective priority. -/
theorem selectPriority_first_max (s : Store) (rot : RotatorState) (now : Nat)
    (c : AntigravityAccount) (hstrat : rot.strategy = RotationStrategy.priority)
    (h : (getNextAccount s rot now).1 = some c) :
    c ∈ availableAccounts (clearExpiredRateLimits s now) ∧
    (∀ b ∈ availableAccounts (clearExpiredRateLimits s now),
      priorityOr1 b.priority ≤ priorityOr1 c.priority) ∧
    ∃ i, (availableAccounts (clearExpiredRateLimits s now)).get? i = some c ∧
      ∀ j b, j < i →
        (availableAccounts (clearExpiredRateLimits s now)).get? j = some b →
        priorityOr1 b.priority < priorityOr1 c.priority := by
  have hsel : selectPriority (availableAccounts (clearExpiredRateLimits s now))
      = some c := by
    unfold getNextAccount at h
    dsimp only at h
    rw [hstrat] at h
    split at h
    · exact absurd h (by simp)
    · dsimp only at h
      exact h
  rw [selectPriority_eq_firstMaxBy] at hsel
  exact firstMaxBy_spec _ _ _ hsel

/-- C6 witness: with two equal-priority candidates, the selected account is the
first one and satisfies the maximality and tie-break characterisation. -/
theorem selectPriority_first_max_witness :
    (accP1L100 ∈ availableAccounts (clearExpiredRateLimits
        [accP1L100, accP1L50] 0) ∧
    (∀ b ∈ availableAccounts (clearExpiredRateLimits [accP1L100, accP1L50] 0),
      priorityOr1 b.priority ≤ priorityOr1 accP1L100.priority) ∧
    ∃ i, (availableAccounts (clearExpiredRateLimits
        [accP1L100, accP1L50] 0)).get? i = some accP1L100 ∧
      ∀ j b, j < i →
        (availableAccounts (clearExpiredRateLimits
          [accP1L100, accP1L50] 0)).get? j = some b →
        priorityOr1 b.priority < priorityOr1 accP1L100.priority) :=
  selectPriority_first_max [accP1L100, accP1L50] rotPriority 0 accP1L100
    rfl (by decide)

/-- C4 counterexample: starting from a fresh account, the first two consecutive
5xx failures retry with delays 1000ms and 2000ms, but the third consecutive 5xx
is not a retry with 4000ms as the claim states: the incremented count reaches
the breaker threshold, so the result is no-retry with delay 0. -/
theorem handle5xx_third_counterexample :
    (handle5xx [accA] "a@x" 1).1 = { shouldRetry := true, delay := 1000 } ∧
    (handle5xx (handle5xx [accA] "a@x" 1).2 "a@x" 2).1
      = { shouldRetry := true, delay := 2000 } ∧
    (handle5xx (handle5xx (handle5xx [accA] "a@x" 1).2 "a@x" 2).2 "a@x" 3).1
      = { shouldRetry := false, delay := 0 } ∧
    (handle5xx (handle5xx (handle5xx [accA] "a@x" 1).2 "a@x" 2).2 "a@x" 3).1
      ≠ { shouldRetry := true, delay := 4000 } := by
  refine ⟨by decide, by decide, by decide, by decide⟩

/-- Below the threshold, `handle5xx` retries with delay `2^(fc) * 1000` and
only increments the stored failure count. -/
theorem handle5xx_step (s : Store) (e : String) (a : AntigravityAccount)
    (ha : getAccount s e = some a) (fc : Nat) (hfc : orZero a.failureCount = fc)
    (hlt : fc + 1 < 3) (now : Nat) :
    handle5xx s e now
      = ({ shouldRetry := true, delay := 2 ^ fc * 1000 },
         updateAccount s e { failureCount := some (some (fc + 1)) }) := by
  have hb : orZero ((getAccount s e).bind (fun x => x.failureCount)) + 1 = fc + 1 := by
    rw [ha]
    simpa using hfc
  unfold handle5xx
  rw [hb, if_pos (by simpa [CIRCUIT_BREAKER_THRESHOLD] using hlt)]
  simp

/-- At the threshold, `handle5xx` does not retry and runs `reportFailure`. -/
theorem handle5xx_trip (s : Store) (e : String) (a : AntigravityAccount)
    (ha : getAccount s e = some a) (hfc : orZero a.failureCount = 2) (now : Nat) :
    handle5xx s e now
      = ({ shouldRetry := false, delay := 0 },
         (reportFailure s e false RATE_LIMIT_COOLDOWN_MS now).2) := by
  have hb : orZero ((getAccount s e).bind (fun x => x.failureCount)) + 1 = 3 := by
    rw [ha]
    simpa using hfc
  unfold handle5xx
  rw [hb, if_neg (by simp [CIRCUIT_BREAKER_THRESHOLD])]

/-- C4 (amended): for an account starting at `failureCount = 0`, consecutive
5xx outcomes retry on the same account with delay `2^(failureCount-1) * 1000`
while the incremented count stays below the threshold — exactly 1000ms on the
1st and 2000ms on the 2nd — incrementing only `failureCount` (no rate
limiting); the 3rd consecutive 5xx reaches the threshold: it is not a retry
(delay 0), `reportFailure(isRateLimit=false)` runs and the account ends
rate-limited.  A 4000ms delay is never produced. -/
theorem handle5xx_backoff (s : Store) (e : String) (a : AntigravityAccount)
    (ha : getAccount s e = some a) (h0 : orZero a.failureCount = 0)
    (n1 n2 n3 : Nat) :
    (handle5xx s e n1).1 = { shouldRetry := true, delay := 1000 } ∧
    getAccount (handle5xx s e n1).2 e = some { a with failureCount := some 1 } ∧
    (handle5xx (handle5xx s e n1).2 e n2).1
      = { shouldRetry := true, delay := 2000 } ∧
    getAccount (handle5xx (handle5xx s e n1).2 e n2).2 e
      = some { a with failureCount := some 2 } ∧
    (handle5xx (handle5xx (handle5xx s e n1).2 e n2).2 e n3).1
      = { shouldRetry := false, delay := 0 } ∧
    getAccount (handle5xx (handle5xx (handle5xx s e n1).2 e n2).2 e n3).2 e
      = some { a with
          failureCount := some 3, lastUsed := some n3,
          isRateLimited := some true,
          rateLimitedUntil := some (n3 + 60000) } := by
  have e1 := handle5xx_step s e a ha 0 h0 (by omega) n1
  have g1 : getAccount (handle5xx s e n1).2 e = some { a with failureCount := some 1 } := by
    rw [e1]
    dsimp only
    rw [getAccount_updateAccount, if_pos rfl, ha]
    rfl
  have e2 := handle5xx_step _ e _ g1 1 (by simp [orZero]) (by omega) n2
  have g2 : getAccount (handle5xx (handle5xx s e n1).2 e n2).2 e
      = some { a with failureCount := some 2 } := by
    rw [e2]
    dsimp only
    rw [getAccount_updateAccount, if_pos rfl, g1]
    rfl
  have e3 := handle5xx_trip _ e _ g2 (by simp [orZero]) n3
  have g3 : getAccount (handle5xx (handle5xx (handle5xx s e n1).2 e n2).2 e n3).2 e
      = some { a with
          failureCount := some 3, lastUsed := some n3,
          isRateLimited := some true,
          rateLimitedUntil := some (n3 + 60000) } := by
    rw [e3]
    dsimp only
    have h := reportFailure_getAccount _ e _ g2 false RATE_LIMIT_COOLDOWN_MS n3
    simpa [orZero, CIRCUIT_BREAKER_THRESHOLD, RATE_LIMIT_COOLDOWN_MS] using h
  exact ⟨by rw [e1]; rfl, g1, by rw [e2]; rfl, g2, by rw [e3], g3⟩

/-- C4 witness: the backoff sequence on a concrete fresh single-account store. -/
theorem handle5xx_backoff_witness :
    ((handle5xx [accA] "a@x" 1).1 = { shouldRetry := true, delay := 1000 } ∧
    getAccount (handle5xx [accA] "a@x" 1).2 "a@x"
      = some { accA with failureCount := some 1 } ∧
    (handle5xx (handle5xx [accA] "a@x" 1).2 "a@x" 2).1
      = { shouldRetry := true, delay := 2000 } ∧
    getAccount (handle5xx (handle5xx [accA] "a@x" 1).2 "a@x" 2).2 "a@x"
      = some { accA with failureCount := some 2 } ∧
    (handle5xx (handle5xx (handle5xx [accA] "a@x" 1).2 "a@x" 2).2 "a@x" 3).1
      = { shouldRetry := false, delay := 0 } ∧
    getAccount (handle5xx (handle5xx (handle5xx [accA] "a@x" 1).2
        "a@x" 2).2 "a@x" 3).2 "a@x"
      = some { accA with
          failureCount := some 3, lastUsed := some 3,
          isRateLimited := some true, rateLimitedUntil := some (3 + 60000) }) :=
  handle5xx_backoff [accA] "a@x" accA (by decide) (by decide) 1 2 3

/-- Keyed merges do not change the sequence of stored keys. -/
theorem updateAccount_emails (s : Store) (e : String) (p : AccountPatch) :
    (updateAccount s e p).map AntigravityAccount.email
      = s.map AntigravityAccount.email := by
  unfold updateAccount
  rw [List.map_map]
  apply List.map_congr_left
  intro a _
  show AntigravityAccount.email (if a.email == e then applyPatch a p else a)
      = a.email
  by_cases h : (a.email == e) = true
  · rw [if_pos h, applyPatch_email]
  · rw [if_neg h]

/-- The 429 cooldown is always positive. -/
theorem cooldown429_pos (r : Option Nat) : 1 ≤ cooldown429 r := by
  unfold cooldown429
  cases r with
  | none => simp [RATE_LIMIT_COOLDOWN_MS]
  | some n =>
      dsimp only
      by_cases h : n = 0
      · simp [h, RATE_LIMIT_COOLDOWN_MS]
      · rw [if_neg h]
        omega

/-- The store written by a rate-limit report (`isRateLimit = true`). -/
theorem reportFailure_store_true (s : Store) (e : String)
    (a : AntigravityAccount) (ha : getAccount s e = some a) (cd now : Nat) :
    (reportFailure s e true cd now).2
      = updateAccount s e
          { failureCount := some (some (orZero a.failureCount + 1)),
            lastUsed := some (some now),
            isRateLimited := some (some true),
            rateLimitedUntil := some (some (now + cd)) } := by
  unfold reportFailure
  rw [ha]
  dsimp only
  rw [if_pos (by simp)]

/-- Under key uniqueness, every stored account is found under its own key. -/
theorem getAccount_of_mem_nodup (s : Store) (b : AntigravityAccount)
    (hnd : (s.map AntigravityAccount.email).Nodup) (hmem : b ∈ s) :
    getAccount s b.email = some b := by
  obtain ⟨l1, l2, rfl⟩ := List.append_of_mem hmem
  have hnd' : ((l1.map AntigravityAccount.email)
      ++ b.email :: l2.map AntigravityAccount.email).Nodup := by
    simpa using hnd
  rw [List.nodup_append] at hnd'
  obtain ⟨-, -, hdisj⟩ := hnd'
  have h1 : ∀ x ∈ l1, x.email ≠ b.email := by
    intro x hx heq
    exact hdisj (List.mem_map_of_mem _ hx) (by simp [heq])
  rw [getAccount_append_of_ne _ _ _ h1]
  exact List.find?_cons_of_pos _ (by simp)

/-- C5 counterexample: two accounts exist, but the only other account is itself
rate-limited with an unexpired cooldown, so handling 429 for the first account
returns no replacement (`none`, a fail action) — the claim's "whenever at least
2 accounts exist, returns a switch action" is false. -/
theorem handle429_no_switch_counterexample :
    (handle429 [accA, accBRLfar] {} "a@x" none 100).1 = none ∧
    ([accA, accBRLfar] : Store).length = 2 := by
  constructor
  · decide
  · rfl

/-- C5 (amended): handling 429 for a stored account always rate-limits it, with
cooldown `retryAfterMs` when supplied and nonzero (a supplied 0 is falsy in the
source and falls back to the default) and the 60s default otherwise; any
returned replacement account has a different email; a replacement is returned
whenever some other account survives the availability filter (it is not
rate-limited, or its expired rate limit is lazily cleared); and when the
failing account is the only account in the store the result is fail (`none`). -/
theorem handle429_behavior (s : Store) (rot : RotatorState) (e : String)
    (r : Option Nat) (now : Nat) (a : AntigravityAccount)
    (hnd : (s.map AntigravityAccount.email).Nodup)
    (ha : getAccount s e = some a) :
    (getAccount (handle429 s rot e r now).2.1 e
      = some { a with
          failureCount := some (orZero a.failureCount + 1),
          lastUsed := some now, isRateLimited := some true,
          rateLimitedUntil := some (now + cooldown429 r) }) ∧
    (∀ c, (handle429 s rot e r now).1 = some c → c.email ≠ e) ∧
    ((∃ b ∈ s, b.email ≠ e ∧ (rateLimitExpired b now = true ∨
        b.isRateLimited.getD false = false)) →
      ∃ c, (handle429 s rot e r now).1 = some c) ∧
    (s = [a] → (handle429 s rot e r now).1 = none) := by
  have hae : a.email = e := getAccount_email s e a ha
  have hcdpos : 1 ≤ cooldown429 r := cooldown429_pos r
  have hs1 : (reportFailure s e true (cooldown429 r) now).2
      = updateAccount s e
          { failureCount := some (some (orZero a.failureCount + 1)),
            lastUsed := some (some now),
            isRateLimited := some (some true),
            rateLimitedUntil := some (some (now + cooldown429 r)) } :=
    reportFailure_store_true s e a ha (cooldown429 r) now
  have h429 : handle429 s rot e r now
      = getNextAccount (updateAccount s e
          { failureCount := some (some (orZero a.failureCount + 1)),
            lastUsed := some (some now),
            isRateLimited := some (some true),
            rateLimitedUntil := some (some (now + cooldown429 r)) }) rot now := by
    unfold handle429
    dsimp only
    rw [hs1]
  have hnd2 : ((updateAccount s e
      { failureCount := some (some (orZero a.failureCount + 1)),
        lastUsed := some (some now),
        isRateLimited := some (some true),
        rateLimitedUntil := some (some (now + cooldown429 r)) }).map
      AntigravityAccount.email).Nodup := by
    rw [updateAccount_emails]
    exact hnd
  have hgA : getAccount (updateAccount s e
      { failureCount := some (some (orZero a.failureCount + 1)),
        lastUsed := some (some now),
        isRateLimited := some (some true),
        rateLimitedUntil := some (some (now + cooldown429 r)) }) e
      = some { a with
          failureCount := some (orZero a.failureCount + 1),
          lastUsed := some now, isRateLimited := some true,
          rateLimitedUntil := some (now + cooldown429 r) } := by
    rw [getAccount_updateAccount, if_pos rfl, ha]
    rfl
  have hAnexp : rateLimitExpired { a with
      failureCount := some (orZero a.failureCount + 1),
      lastUsed := some now, isRateLimited := some true,
      rateLimitedUntil := some (now + cooldown429 r) } now = false := by
    have hno : ¬ (now + cooldown429 r ≤ now) := by omega
    simp [rateLimitExpired, hno]
  have hne : ∀ c, (handle429 s rot e r now).1 = some c → c.email ≠ e := by
    intro c hc heq
    rw [h429] at hc
    have hcmem := getNextAccount_mem _ rot now c hc
    obtain ⟨hcmem', hcflag⟩ := List.mem_filter.mp hcmem
    rw [clearExpired_eq_map] at hcmem'
    obtain ⟨d, hd, hdc⟩ := List.mem_map.mp hcmem'
    have hde : d.email = e := by
      rw [← clearFold_email now _ d, hdc]
      exact heq
    obtain ⟨d0, hd0, hud⟩ := List.mem_map.mp (by
      unfold updateAccount at hd
      exact hd)
    by_cases h0 : d0.email = e
    · have hd' : d = applyPatch d0
          { failureCount := some (some (orZero a.failureCount + 1)),
            lastUsed := some (some now),
            isRateLimited := some (some true),
            rateLimitedUntil := some (some (now + cooldown429 r)) } := by
        rw [← hud, if_pos (by simp [h0])]
      have hdrl : d.isRateLimited = some true := by rw [hd']; rfl
      have hdru : d.rateLimitedUntil = some (now + cooldown429 r) := by
        rw [hd']; rfl
      have hdnexp : rateLimitExpired d now = false := by
        have hno : ¬ (now + cooldown429 r ≤ now) := by omega
        simp [rateLimitExpired, hdrl, hdru, hno]
      have hcd2 : c = d := by
        rw [← hdc, clearFold_mem _ now d hnd2 hd, hdnexp]
        simp
      rw [hcd2, hdrl] at hcflag
      simp at hcflag
    · have hdd0 : d = d0 := by
        rw [← hud, if_neg (by simp [h0])]
      exact h0 (by rw [← hdd0]; exact hde)
  refine ⟨?_, hne, ?_, ?_⟩
  · rw [h429, getNextAccount_store]
    have hmemA := getAccount_mem _ _ _ hgA
    have hval := getAccount_clearExpired _ now _ hnd2 hmemA
    rw [hAnexp] at hval
    simp only [Bool.false_eq_true, if_false, ite_false] at hval
    nth_rewrite 1 [hae] at hval
    exact hval
  · rintro ⟨b, hb, hbe, hbav⟩
    rw [h429]
    apply getNextAccount_some
    have hbs2 : b ∈ updateAccount s e
        { failureCount := some (some (orZero a.failureCount + 1)),
          lastUsed := some (some now),
          isRateLimited := some (some true),
          rateLimitedUntil := some (some (now + cooldown429 r)) } := by
      unfold updateAccount
      exact List.mem_map.mpr ⟨b, hb, by rw [if_neg (by simp [hbe])]⟩
    have hg := clearFold_mem _ now b hnd2 hbs2
    refine List.ne_nil_of_mem
      (?_ : (if rateLimitExpired b now then applyPatch b clearPatch else b) ∈ _)
    refine List.mem_filter.mpr ⟨?_, ?_⟩
    · rw [clearExpired_eq_map]
      exact List.mem_map.mpr ⟨b, hbs2, hg⟩
    · by_cases hexp : rateLimitExpired b now
      · rw [if_pos hexp]
        rfl
      · rw [if_neg hexp]
        rcases hbav with hbav | hbav
        · exact absurd hbav hexp
        · simp [hbav]
  · intro hseq
    subst hseq
    cases hres : (handle429 [a] rot e r now).1 with
    | none => rfl
    | some c =>
        exfalso
        have h1 := hne c hres
        rw [h429] at hres
        have hcmem := getNextAccount_mem _ rot now c hres
        obtain ⟨hcmem', -⟩ := List.mem_filter.mp hcmem
        rw [clearExpired_eq_map] at hcmem'
        obtain ⟨d, hd, hdc⟩ := List.mem_map.mp hcmem'
        obtain ⟨d0, hd0, hud⟩ := List.mem_map.mp (by
          unfold updateAccount at hd
          exact hd)
        have hd0a : d0 = a := by simpa using hd0
        have hdemail : d.email = e := by
          rw [← hud, hd0a, if_pos (by simp [hae]), applyPatch_email]
          exact hae
        exact h1 (by rw [← hdc, clearFold_email]; exact hdemail)

/-- C5 witness: with a second, fresh account present, handling 429 for the
first account rate-limits it and hands back a different account. -/
theorem handle429_behavior_witness :
    ((getAccount (handle429 [accA, accB] {} "a@x" none 100).2.1 "a@x"
      = some { accA with
          failureCount := some (orZero accA.failureCount + 1),
          lastUsed := some 100, isRateLimited := some true,
          rateLimitedUntil := some (100 + cooldown429 none) }) ∧
    (∀ c, (handle429 [accA, accB] {} "a@x" none 100).1 = some c →
      c.email ≠ "a@x") ∧
    ((∃ b ∈ ([accA, accB] : Store), b.email ≠ "a@x" ∧
        (rateLimitExpired b 100 = true ∨ b.isRateLimited.getD false = false)) →
      ∃ c, (handle429 [accA, accB] {} "a@x" none 100).1 = some c) ∧
    (([accA, accB] : Store) = [accA] →
      (handle429 [accA, accB] {} "a@x" none 100).1 = none)) :=
  handle429_behavior [accA, accB] {} "a@x" none 100 accA (by decide) (by decide)

/-- C8: for every status outside 2xx and distinct from 429, 401, 403 and 5xx,
the interceptor reports a plain failure (`isRateLimit = false`) for the account
and returns action `continue` with no account switch, no replacement
credentials and no delay, leaving the rotator state unchanged. -/
theorem handleResponse_unclassified (s : Store) (rot : RotatorState)
    (status : Nat) (e : String) (r : Option Nat) (now : Nat)
    (h2 : ¬(200 ≤ status ∧ status < 300)) (h429 : status ≠ 429)
    (h401 : status ≠ 401) (h403 : status ≠ 403)
    (h5 : ¬(500 ≤ status ∧ status < 600)) :
    handleResponse s rot status e r now
      = ({ action := InterceptAction.cont },
         (reportFailure s e false RATE_LIMIT_COOLDOWN_MS now).2, rot) := by
  unfold handleResponse
  rw [if_neg h2, if_neg h429, if_neg h401, if_neg h403, if_neg h5]

/-- C8 witness: status 404 is handled as a plain failure with a continue
action on a one-account store. -/
theorem handleResponse_unclassified_witness :
    handleResponse [accA] {} 404 "a@x" none 9
      = ({ action := InterceptAction.cont },
         (reportFailure [accA] "a@x" false RATE_LIMIT_COOLDOWN_MS 9).2, {}) :=
  handleResponse_unclassified [accA] {} 404 "a@x" none 9 (by omega) (by omega)
    (by omega) (by omega) (by omega)

/-- C9 counterexample: an account with `expiresAt = 0` satisfies the claim's
refresh window (`0 - 1000 < 300000`) and is not rate-limited, yet the sweep's
query excludes it — `expiresAt` is falsy in the source guard
`a.expiresAt && (a.expiresAt - now) < thresholdMs` — so the tick does not
select exactly the claimed set. -/
theorem refresh_window_counterexample :
    getAccountsNeedingRefresh [accExp0] TOKEN_EXPIRY_THRESHOLD_MS 1000 = [] ∧
    accExp0.isRateLimited.getD false = false ∧
    ((accExp0.expiresAt : Int) - (1000 : Int) < TOKEN_EXPIRY_THRESHOLD_MS) := by
  refine ⟨by decide, rfl, by decide⟩

/-- During a sweep, an account that no processed entry keys is untouched. -/
theorem refresh_fold_frame (outcome : AntigravityAccount → Option (String × Nat))
    (now : Nat) (L : List AntigravityAccount) :
    ∀ (st : Store) (b : AntigravityAccount), (∀ a ∈ L, a.email ≠ b.email) →
      getAccount st b.email = some b →
      getAccount (L.foldl (refreshStep outcome now) st) b.email = some b := by
  induction L with
  | nil => intro st b _ h; exact h
  | cons a L ih =>
      intro st b hne h
      rw [List.foldl_cons]
      apply ih _ b (fun x hx => hne x (by simp [hx]))
      have hane : ¬ (b.email = a.email) := fun hh => hne a (by simp) hh.symm
      unfold refreshStep
      cases houtcome : outcome a with
      | some tokens =>
          unfold updateAccountTokens
          rw [getAccount_updateAccount, if_neg hane]
          exact h
      | none =>
          unfold reportFailure
          cases hga : getAccount st a.email with
          | none => exact h
          | some x =>
              dsimp only
              rw [getAccount_updateAccount, if_neg hane]
              exact h

/-- C9 (amended): each sweep tick selects exactly the accounts that are not
rate-limited, have a truthy (nonzero) `expiresAt`, and satisfy
`expiresAt - now < thresholdMs`; and, under key uniqueness, every stored
account outside that selection receives no store write during the sweep —
its record is unchanged afterwards. -/
theorem refresh_sweep_frame (s : Store) (th : Int) (now : Nat)
    (outcome : AntigravityAccount → Option (String × Nat))
    (hnd : (s.map AntigravityAccount.email).Nodup) :
    (∀ x, x ∈ getAccountsNeedingRefresh s th now ↔
      x ∈ s ∧ x.isRateLimited.getD false = false ∧ x.expiresAt ≠ 0 ∧
        (x.expiresAt : Int) - (now : Int) < th) ∧
    (∀ b ∈ s, b ∉ getAccountsNeedingRefresh s th now →
      getAccount (refreshAllTokens s th outcome now) b.email = some b) := by
  have hmem : ∀ x, x ∈ getAccountsNeedingRefresh s th now ↔
      x ∈ s ∧ x.isRateLimited.getD false = false ∧ x.expiresAt ≠ 0 ∧
        (x.expiresAt : Int) - (now : Int) < th := by
    intro x
    unfold getAccountsNeedingRefresh
    rw [List.mem_filter]
    simp [Bool.and_eq_true, Bool.not_eq_true', bne_iff_ne, decide_eq_true_eq,
      and_assoc]
  refine ⟨hmem, ?_⟩
  intro b hb hnotin
  have hkey : ∀ x ∈ getAccountsNeedingRefresh s th now, x.email ≠ b.email := by
    intro x hx heq
    have hxs : x ∈ s := ((hmem x).mp hx).1
    have hxb : x = b := List.inj_on_of_nodup_map hnd hxs hb heq
    exact hnotin (hxb ▸ hx)
  have hstart : getAccount s b.email = some b := getAccount_of_mem_nodup s b hnd hb
  unfold refreshAllTokens
  exact refresh_fold_frame outcome now (getAccountsNeedingRefresh s th now) s b
    hkey hstart

/-- C9 witness: with both demonstration accounts far from expiry at
`now = 1000`, the selection is empty and both records survive the sweep
unchanged. -/
theorem refresh_sweep_frame_witness :
    ((∀ x, x ∈ getAccountsNeedingRefresh [accA, accB]
        TOKEN_EXPIRY_THRESHOLD_MS 1000 ↔
      x ∈ ([accA, accB] : Store) ∧ x.isRateLimited.getD false = false ∧
        x.expiresAt ≠ 0 ∧
        (x.expiresAt : Int) - (1000 : Int) < TOKEN_EXPIRY_THRESHOLD_MS) ∧
    (∀ b ∈ ([accA, accB] : Store),
      b ∉ getAccountsNeedingRefresh [accA, accB] TOKEN_EXPIRY_THRESHOLD_MS 1000 →
      getAccount (refreshAllTokens [accA, accB] TOKEN_EXPIRY_THRESHOLD_MS
        (fun _ => none) 1000) b.email = some b)) :=
  refresh_sweep_frame [accA, accB] TOKEN_EXPIRY_THRESHOLD_MS 1000
    (fun _ => none) (by decide)

end OpenClaw
